import Mathlib

/-!
Shallow embedding of the in-memory social platform directories of
`social_platform.py` (UserManager, ConnectionManager, RoomManager,
MessageManager, RealtimeManager and the SocialPlatform facade wiring).

Modelling conventions, used uniformly below:
* Python `dict`s become insertion-ordered association lists
  `List (String × α)` with `alookup` (first matching key), `aset`
  (replace the value at the first matching key, else append — matching
  `d[k] = v`) and `aerase` (drop every entry with the key — `del d[k]`
  on the well-formed states, whose key lists are duplicate-free).
* Python `set`s of strings become insertion-ordered duplicate-free
  `List String` with `saddL` (`s.add`) and `List.erase` (`s.discard`).
  CPython iterates a set in an unspecified hash-dependent order; the
  insertion order used here is one admissible iteration order.
* `uuid.uuid4()` becomes a per-manager counter `next_id`; distinct
  draws give distinct identifiers, and theorems that need a drawn
  identifier to differ from caller-chosen keys assume that freshness
  explicitly, mirroring the uuid-uniqueness assumption.
* `time.time()` becomes an explicit `now : Nat` argument supplied by
  the caller of each top-level operation.
* Free-form `metadata` / `Any`-valued maps, `attachments`,
  `preferences`, `privacy_settings`, `achievements`, `settings` and
  `tags` are carried by no claim and are omitted from the records.
* Statements the Python runtime can raise (`d[k]` / `del d[k]` on a
  missing key) are modelled in `Except String`; everything else is a
  total function, as in the source nothing else can raise.
-/

/-- First value stored under a key, like `dict.get`. -/
def alookup {α : Type} : List (String × α) → String → Option α
  | [], _ => none
  | (k', v) :: rest, k => if k' = k then some v else alookup rest k

/-- `d[k] = v`: replace the value at the first occurrence of the key,
else append the new entry at the end, as a Python dict does. -/
def aset {α : Type} : List (String × α) → String → α → List (String × α)
  | [], k, v => [(k, v)]
  | (k', v') :: rest, k, v =>
      if k' = k then (k, v) :: rest else (k', v') :: aset rest k v

/-- `del d[k]` on a well-formed (duplicate-free) dict: drop the entry. -/
def aerase {α : Type} (m : List (String × α)) (k : String) : List (String × α) :=
  m.filter (fun p => p.1 ≠ k)

/-- `s.add(x)` on a Python set modelled as an insertion-ordered list. -/
def saddL (s : List String) (x : String) : List String :=
  if x ∈ s then s else s ++ [x]

theorem alookup_aset_self {α : Type} (m : List (String × α)) (k : String) (v : α) :
    alookup (aset m k v) k = some v := by
  induction m with
  | nil => simp [aset, alookup]
  | cons p rest ih =>
      obtain ⟨a, b⟩ := p
      by_cases ha : a = k
      · subst ha; simp [aset, alookup]
      · simp [aset, alookup, ha, ih]

theorem alookup_aset_ne {α : Type} (m : List (String × α)) (k k' : String) (v : α)
    (h : k' ≠ k) : alookup (aset m k v) k' = alookup m k' := by
  induction m with
  | nil => simp [aset, alookup, Ne.symm h]
  | cons p rest ih =>
      obtain ⟨a, b⟩ := p
      by_cases ha : a = k
      · subst ha; simp [aset, alookup, Ne.symm h]
      · by_cases hb : a = k'
        · simp [aset, alookup, ha, hb, h]
        · simp [aset, alookup, ha, hb, ih]

theorem alookup_aerase_self {α : Type} (m : List (String × α)) (k : String) :
    alookup (aerase m k) k = none := by
  induction m with
  | nil => simp [aerase, alookup]
  | cons p rest ih =>
      obtain ⟨a, b⟩ := p
      by_cases ha : a = k
      · simpa [aerase, List.filter_cons, ha] using ih
      · simpa [aerase, List.filter_cons, alookup, ha] using ih

theorem alookup_aerase_ne {α : Type} (m : List (String × α)) (k k' : String)
    (h : k' ≠ k) : alookup (aerase m k) k' = alookup m k' := by
  induction m with
  | nil => simp [aerase]
  | cons p rest ih =>
      obtain ⟨a, b⟩ := p
      by_cases ha : a = k
      · subst ha
        simpa [aerase, List.filter_cons, alookup, Ne.symm h] using ih
      · by_cases hb : a = k'
        · simp [aerase, List.filter_cons, alookup, ha, hb, h]
        · simpa [aerase, List.filter_cons, alookup, ha, hb] using ih

theorem mem_aset {α : Type} (m : List (String × α)) (k : String) (v : α)
    (p : String × α) (hp : p ∈ aset m k v) : p = (k, v) ∨ p ∈ m := by
  induction m with
  | nil => simpa [aset] using hp
  | cons q rest ih =>
      obtain ⟨a, b⟩ := q
      by_cases ha : a = k
      · subst ha
        simp only [aset, if_pos rfl] at hp
        rcases List.mem_cons.mp hp with h1 | h1
        · exact Or.inl h1
        · exact Or.inr (List.mem_cons.mpr (Or.inr h1))
      · simp only [aset, if_neg ha] at hp
        rcases List.mem_cons.mp hp with h1 | h1
        · exact Or.inr (List.mem_cons.mpr (Or.inl h1))
        · rcases ih h1 with h2 | h2
          · exact Or.inl h2
          · exact Or.inr (List.mem_cons.mpr (Or.inr h2))

theorem mem_aerase {α : Type} (m : List (String × α)) (k : String)
    (p : String × α) (hp : p ∈ aerase m k) : p ∈ m :=
  List.mem_of_mem_filter hp

theorem alookup_mem {α : Type} (m : List (String × α)) (k : String) (v : α)
    (h : alookup m k = some v) : (k, v) ∈ m := by
  induction m with
  | nil => simp [alookup] at h
  | cons p rest ih =>
      obtain ⟨a, b⟩ := p
      by_cases ha : a = k
      · subst ha
        simp [alookup] at h
        subst h
        exact List.mem_cons_self _ _
      · simp only [alookup, if_neg ha] at h
        exact List.mem_cons_of_mem _ (ih h)

theorem alookup_none_aerase {α : Type} (m : List (String × α)) (k : String)
    (h : alookup m k = none) : aerase m k = m := by
  induction m with
  | nil => simp [aerase]
  | cons p rest ih =>
      obtain ⟨a, b⟩ := p
      by_cases ha : a = k
      · simp [alookup, ha] at h
      · simp only [alookup, if_neg ha] at h
        have hrest := ih h
        simp only [aerase] at hrest ⊢
        rw [List.filter_cons, if_pos (by simp [ha]), hrest]

/-! ### Enumerations (social_platform.py lines 16-48) -/

inductive UserStatus where
  | online | away | busy | invisible | offline
deriving DecidableEq, Repr

inductive ConnectionType where
  | friend | follower | following | blocked | «mutual»
deriving DecidableEq, Repr

inductive RoomType where
  | «public» | «private» | invite_only | temporary
deriving DecidableEq, Repr

/-! ### ConnectionManager (social_platform.py lines 310-433) -/

/-- `SocialConnection` dataclass (lines 68-78); `metadata` omitted. -/
structure SocialConnection where
  connection_id : String
  user_id : String
  target_user_id : String
  connection_type : ConnectionType
  created_at : Nat
  strength : ℚ := 1/2
  «mutual» : Bool := false
deriving DecidableEq, Repr

/-- `ConnectionManager.__init__`: `connections` dict, `user_connections`
index (user id to set of connection ids), plus the uuid draw counter. -/
structure CMState where
  connections : List (String × SocialConnection) := []
  user_connections : List (String × List String) := []
  next_id : Nat := 0
deriving DecidableEq, Repr

/-- Identifier produced by the n-th uuid draw of the connection manager. -/
def freshConnId (n : Nat) : String := "conn-" ++ toString n

/-- The scan inside `get_connection`: walk the user's connection-id set in
iteration order and return the first connection whose target matches.
The returned key names the dict slot holding the (aliased) object. -/
def connScan (conns : List (String × SocialConnection)) (target : String) :
    List String → Option (String × SocialConnection)
  | [] => none
  | cid :: rest =>
      match alookup conns cid with
      | some c => if c.target_user_id = target then some (cid, c)
                  else connScan conns target rest
      | none => connScan conns target rest

/-- `ConnectionManager.get_connection` (lines 346-356), kept together with
the dict key of the object it returns (Python returns an aliased object;
mutating that object mutates the entry at this key). -/
def get_connection_entry (st : CMState) (user_id target_user_id : String) :
    Option (String × SocialConnection) :=
  connScan st.connections target_user_id ((alookup st.user_connections user_id).getD [])

/-- `ConnectionManager.get_connection`, value part only. -/
def get_connection (st : CMState) (user_id target_user_id : String) :
    Option SocialConnection :=
  (get_connection_entry st user_id target_user_id).map Prod.snd

/-- The shared tail of `create_connection` (lines 337-344): store the new
edge under its identifier, add it to the creator's index, count the draw. -/
def cm_store (st1 : CMState) (user_id cid : String) (conn : SocialConnection)
    (next : Nat) : SocialConnection × CMState :=
  let idx := (alookup st1.user_connections user_id).getD []
  ( conn,
    { st1 with
        connections := aset st1.connections cid conn,
        user_connections := aset st1.user_connections user_id (saddL idx cid),
        next_id := next } )

/-- `ConnectionManager.create_connection` (lines 317-344): build the edge
with `mutual = False`; if the reverse lookup finds an edge of the identical
type, set `mutual` on both objects; store the new edge; index it. -/
def create_connection (st : CMState) (user_id target_user_id : String)
    (ctype : ConnectionType) (now : Nat) : SocialConnection × CMState :=
  let cid := freshConnId st.next_id
  let conn0 : SocialConnection :=
    { connection_id := cid, user_id := user_id, target_user_id := target_user_id,
      connection_type := ctype, created_at := now }
  match get_connection_entry st target_user_id user_id with
  | some (rk, rc) =>
      if rc.connection_type = ctype then
        cm_store { st with connections := aset st.connections rk { rc with «mutual» := true } }
          user_id cid { conn0 with «mutual» := true } (st.next_id + 1)
      else cm_store st user_id cid conn0 (st.next_id + 1)
  | none => cm_store st user_id cid conn0 (st.next_id + 1)

/-- `ConnectionManager.remove_connection` (lines 385-401). -/
def remove_connection (st : CMState) (cid : String) : Bool × CMState :=
  match alookup st.connections cid with
  | none => (false, st)
  | some conn =>
      let st1 := { st with connections := aerase st.connections cid }
      let st2 :=
        match alookup st1.user_connections conn.user_id with
        | some ids =>
            { st1 with
                user_connections := aset st1.user_connections conn.user_id (ids.erase cid) }
        | none => st1
      (true, st2)

theorem connScan_lookup (conns : List (String × SocialConnection)) (target : String)
    (ids : List String) (k : String) (c : SocialConnection)
    (h : connScan conns target ids = some (k, c)) :
    alookup conns k = some c ∧ c.target_user_id = target := by
  induction ids with
  | nil => simp [connScan] at h
  | cons cid rest ih =>
      cases hc : alookup conns cid with
      | none =>
          simp only [connScan, hc] at h
          exact ih h
      | some c' =>
          simp only [connScan, hc] at h
          by_cases ht : c'.target_user_id = target
          · rw [if_pos ht] at h
            simp only [Option.some.injEq, Prod.mk.injEq] at h
            obtain ⟨hk, hcc⟩ := h
            subst hk; subst hcc
            exact ⟨hc, ht⟩
          · rw [if_neg ht] at h
            exact ih h

/-! ### Claim C1 -/

/-- Claim C1, as stated, is false: `create_connection` checks only the FIRST
edge B→A found in B's index. Here B holds two edges to A (follower, then
friend); when A creates A→B of type friend, a B→A edge of the identical
type friend exists ("conn-1"), yet the reverse lookup hits the follower
edge "conn-0" first, so neither the new edge nor "conn-1" gets
`mutual = true`. -/
theorem C1_counterexample :
    ((alookup ((create_connection (create_connection {} "B" "A" ConnectionType.follower 0).2
          "B" "A" ConnectionType.friend 1).2).connections "conn-1").map
        (fun c => (c.user_id, c.target_user_id, c.connection_type, c.«mutual»))) =
      some ("B", "A", ConnectionType.friend, false) ∧
    (create_connection (create_connection (create_connection {} "B" "A" ConnectionType.follower 0).2
        "B" "A" ConnectionType.friend 1).2 "A" "B" ConnectionType.friend 2).1.«mutual» = false ∧
    ((alookup ((create_connection (create_connection (create_connection {} "B" "A" ConnectionType.follower 0).2
          "B" "A" ConnectionType.friend 1).2 "A" "B" ConnectionType.friend 2).2).connections "conn-1").map
        (fun c => c.«mutual»)) = some false := by
  decide

/-- Claim C1 (amended): if at call time the reverse lookup
`get_connection(B, A)` yields an edge of the identical type T (in
particular whenever the first B→A edge in B's index has type T, e.g. when
it is the only one), then immediately after `create_connection(A, B, T)`
both that edge and the new edge have `mutual = true`; the creation leaves
every other stored edge's record (hence its mutual flag) unchanged, and
`remove_connection` leaves every surviving edge's record unchanged.
The freshness hypothesis models uuid uniqueness: the drawn identifier is
not already a key of the connection dict. -/
theorem C1_mutual_flag (st : CMState) (A B : String) (T : ConnectionType) (now : Nat)
    (hfresh : alookup st.connections (freshConnId st.next_id) = none) :
    (∀ k rc, get_connection_entry st B A = some (k, rc) → rc.connection_type = T →
      (create_connection st A B T now).1.«mutual» = true ∧
      alookup ((create_connection st A B T now).2).connections k =
        some { rc with «mutual» := true }) ∧
    (∀ k e, alookup st.connections k = some e →
      (get_connection_entry st B A = some (k, e) → e.connection_type ≠ T) →
      alookup ((create_connection st A B T now).2).connections k = some e) ∧
    (∀ cid k e, k ≠ cid → alookup st.connections k = some e →
      alookup ((remove_connection st cid).2).connections k = some e) := by
  refine ⟨?_, ?_, ?_⟩
  · intro k rc hget ht
    have hlk : alookup st.connections k = some rc :=
      (connScan_lookup st.connections A _ k rc hget).1
    have hkcid : k ≠ freshConnId st.next_id := by
      intro hh
      rw [hh, hfresh] at hlk
      cases hlk
    constructor
    · simp only [create_connection, hget]
      rw [if_pos ht]
      simp [cm_store]
    · simp only [create_connection, hget]
      rw [if_pos ht]
      simp only [cm_store]
      rw [alookup_aset_ne _ _ _ _ hkcid, alookup_aset_self]
  · intro k e hlk hmiss
    have hkcid : k ≠ freshConnId st.next_id := by
      intro hh
      rw [hh, hfresh] at hlk
      cases hlk
    cases hrev : get_connection_entry st B A with
    | none =>
        simp only [create_connection, hrev, cm_store]
        rw [alookup_aset_ne _ _ _ _ hkcid]
        exact hlk
    | some p =>
        obtain ⟨k', rc⟩ := p
        by_cases ht : rc.connection_type = T
        · have hk' : k' ≠ k := by
            intro hh
            subst hh
            have hlk' : alookup st.connections k' = some rc :=
              (connScan_lookup st.connections A _ k' rc hrev).1
            rw [hlk] at hlk'
            injection hlk' with hh2
            subst hh2
            exact hmiss hrev ht
          simp only [create_connection, hrev]
          rw [if_pos ht]
          simp only [cm_store]
          rw [alookup_aset_ne _ _ _ _ hkcid, alookup_aset_ne _ _ _ _ (Ne.symm hk')]
          exact hlk
        · simp only [create_connection, hrev]
          rw [if_neg ht]
          simp only [cm_store]
          rw [alookup_aset_ne _ _ _ _ hkcid]
          exact hlk
  · intro cid k e hne hlk
    cases hc : alookup st.connections cid with
    | none => simp only [remove_connection, hc]; exact hlk
    | some conn =>
        simp only [remove_connection, hc]
        cases huc : alookup st.user_connections conn.user_id with
        | none =>
            simp only [huc]
            rw [alookup_aerase_ne _ _ _ hne]
            exact hlk
        | some ids =>
            simp only [huc]
            rw [alookup_aerase_ne _ _ _ hne]
            exact hlk

/-- Witness for C1_mutual_flag at a concrete input: after B creates a
single friend edge B→A, A creating a friend edge A→B makes the new edge
mutual. -/
theorem C1_mutual_flag_witness :
    alookup ((create_connection {} "B" "A" ConnectionType.friend 0).2).connections
        (freshConnId ((create_connection {} "B" "A" ConnectionType.friend 0).2).next_id) = none ∧
    (create_connection (create_connection {} "B" "A" ConnectionType.friend 0).2
        "A" "B" ConnectionType.friend 1).1.«mutual» = true := by
  refine ⟨by decide, ?_⟩
  exact ((C1_mutual_flag (create_connection {} "B" "A" ConnectionType.friend 0).2
      "A" "B" ConnectionType.friend 1 (by decide)).1 "conn-0"
    { connection_id := "conn-0", user_id := "B", target_user_id := "A",
      connection_type := ConnectionType.friend, created_at := 0 } (by rfl) rfl).1

/-! ### RoomManager (social_platform.py lines 435-604) -/

/-- `SocialRoom` dataclass (lines 80-94); `settings`, `tags` and `metadata`
omitted. `capacity` is a natural number, following the data-model section
of the spec ("capacity (positive integer)"). -/
structure SocialRoom where
  room_id : String
  name : String
  description : String := ""
  room_type : RoomType
  owner_id : String
  capacity : Nat
  current_users : List String := []
  moderators : List String := []
  created_at : Nat := 0
deriving DecidableEq, Repr

/-- `RoomManager.__init__` (lines 438-441); `room_callbacks` hold no
manager state and are modelled at the facade layer. -/
structure RMState where
  rooms : List (String × SocialRoom) := []
  user_rooms : List (String × List String) := []
deriving DecidableEq, Repr

/-- `RoomManager.create_room` (lines 443-465), with the room identifier
passed explicitly (`room_data.get("room_id", uuid)`); the owner is added
to the moderator set after construction. -/
def create_room (st : RMState) (room_id name owner_id : String) (rtype : RoomType)
    (capacity : Nat) (now : Nat) : SocialRoom × RMState :=
  let room : SocialRoom :=
    { room_id := room_id, name := name, room_type := rtype, owner_id := owner_id,
      capacity := capacity, created_at := now, moderators := [owner_id] }
  (room, { st with rooms := aset st.rooms room_id room })

/-- `RoomManager.join_room` (lines 471-493): false on unknown room or
`len(current_users) >= capacity`; otherwise add the user to the member set
and to the user→rooms index. -/
def join_room (st : RMState) (room_id user_id : String) : Bool × RMState :=
  match alookup st.rooms room_id with
  | none => (false, st)
  | some room =>
      if room.capacity ≤ room.current_users.length then (false, st)
      else
        let room1 := { room with current_users := saddL room.current_users user_id }
        let st1 := { st with rooms := aset st.rooms room_id room1 }
        (true,
         { st1 with
             user_rooms := aset st1.user_rooms user_id
               (saddL ((alookup st1.user_rooms user_id).getD []) room_id) })

mutual

/-- `RoomManager.leave_room` (lines 495-518): false on unknown room or
non-member; remove the user from member and moderator sets and from the
user→rooms index; if the room is TEMPORARY and now empty, cascade into
`delete_room`. The `fuel` counter bounds the (in the source, finite)
mutual recursion; running out gives `error "fuel"`. -/
def leave_room (fuel : Nat) (st : RMState) (room_id user_id : String) :
    Except String (Bool × RMState) :=
  match alookup st.rooms room_id with
  | none => Except.ok (false, st)
  | some room =>
      if user_id ∈ room.current_users then
        let room1 := { room with current_users := room.current_users.erase user_id,
                                 moderators := room.moderators.erase user_id }
        let st1 := { st with rooms := aset st.rooms room_id room1 }
        let st2 :=
          match alookup st1.user_rooms user_id with
          | some rs => { st1 with user_rooms := aset st1.user_rooms user_id (rs.erase room_id) }
          | none => st1
        if room1.room_type = RoomType.temporary ∧ room1.current_users = [] then
          match fuel with
          | 0 => Except.error "fuel"
          | f + 1 => (delete_room f st2 room_id).map (fun p => (true, p.2))
        else Except.ok (true, st2)
      else Except.ok (false, st)

/-- `RoomManager.delete_room` (lines 577-591): push every member of the
entry snapshot through `leave_room`, then `del self.rooms[room_id]` —
which raises KeyError when the cascade already removed the record. -/
def delete_room (fuel : Nat) (st : RMState) (room_id : String) :
    Except String (Bool × RMState) :=
  match alookup st.rooms room_id with
  | none => Except.ok (false, st)
  | some room =>
      match fuel with
      | 0 => Except.error "fuel"
      | f + 1 =>
          (leave_all f st room_id room.current_users).bind (fun st1 =>
            if (alookup st1.rooms room_id).isSome then
              Except.ok (true, { st1 with rooms := aerase st1.rooms room_id })
            else Except.error "KeyError")

/-- The member loop of `delete_room` (lines 584-586), iterating over the
snapshot `list(room.current_users)` taken at entry. -/
def leave_all (fuel : Nat) (st : RMState) (room_id : String) :
    List String → Except String RMState
  | [] => Except.ok st
  | u :: rest =>
      match fuel with
      | 0 => Except.error "fuel"
      | f + 1 => (leave_room f st room_id u).bind (fun p => leave_all f p.2 room_id rest)

end

theorem mem_saddL_self (s : List String) (x : String) : x ∈ saddL s x := by
  unfold saddL
  by_cases h : x ∈ s
  · simp [h]
  · simp [h]

/-- The room-capacity invariant of the spec: in a room-manager state every
room's member count is at most its capacity. -/
def roomInv (st : RMState) : Prop :=
  ∀ p ∈ st.rooms, p.2.current_users.length ≤ p.2.capacity

theorem roomInv_aset_of (st : RMState) (r : String) (room1 : SocialRoom)
    (h : roomInv st) (h1 : room1.current_users.length ≤ room1.capacity) :
    ∀ p ∈ aset st.rooms r room1, p.2.current_users.length ≤ p.2.capacity := by
  intro p hp
  rcases mem_aset _ _ _ _ hp with h2 | h2
  · subst h2; exact h1
  · exact h p h2

theorem join_room_inv (st : RMState) (r u : String) (h : roomInv st) :
    roomInv (join_room st r u).2 := by
  unfold join_room
  cases hr : alookup st.rooms r with
  | none => exact h
  | some room =>
      dsimp only
      by_cases hc : room.capacity ≤ room.current_users.length
      · rw [if_pos hc]; exact h
      · rw [if_neg hc]
        intro p hp
        refine roomInv_aset_of st r _ h ?_ p hp
        show (saddL room.current_users u).length ≤ room.capacity
        have hlen : (saddL room.current_users u).length ≤ room.current_users.length + 1 := by
          unfold saddL
          by_cases hm : u ∈ room.current_users
          · simp [hm]
          · simp [hm]
        omega

theorem exceptMap_ok {ε α β : Type} (g : α → β) (x : Except ε α) (out : β)
    (h : Except.map g x = Except.ok out) : ∃ a, x = Except.ok a ∧ out = g a := by
  cases x with
  | error e => simp [Except.map] at h
  | ok a =>
      refine ⟨a, rfl, ?_⟩
      simp [Except.map] at h
      exact h.symm

theorem exceptBind_ok {ε α β : Type} (g : α → Except ε β) (x : Except ε α) (out : β)
    (h : Except.bind x g = Except.ok out) : ∃ a, x = Except.ok a ∧ g a = Except.ok out := by
  cases x with
  | error e => simp [Except.bind] at h
  | ok a =>
      refine ⟨a, rfl, ?_⟩
      simpa [Except.bind] using h

theorem leave_upd_inv (st : RMState) (r u : String) (room : SocialRoom)
    (hr : alookup st.rooms r = some room) (hinv : roomInv st) :
    ∀ st2 : RMState,
      st2.rooms = aset st.rooms r
        { room with current_users := room.current_users.erase u,
                    moderators := room.moderators.erase u } →
      roomInv st2 := by
  intro st2 hst2 p hp
  rw [hst2] at hp
  refine roomInv_aset_of st r _ hinv ?_ p hp
  show (room.current_users.erase u).length ≤ room.capacity
  have h1 := List.Sublist.length_le (List.erase_sublist u room.current_users)
  have hcap : room.current_users.length ≤ room.capacity :=
    hinv (r, room) (alookup_mem _ _ _ hr)
  omega

theorem rm_inv_all : ∀ fuel : Nat,
    (∀ st r u out, leave_room fuel st r u = Except.ok out → roomInv st → roomInv out.2) ∧
    (∀ st r out, delete_room fuel st r = Except.ok out → roomInv st → roomInv out.2) ∧
    (∀ l st r st', leave_all fuel st r l = Except.ok st' → roomInv st → roomInv st') := by
  intro fuel
  induction fuel with
  | zero =>
      refine ⟨?_, ?_, ?_⟩
      · intro st r u out hok hinv
        rw [leave_room] at hok
        cases hr : alookup st.rooms r with
        | none => rw [hr] at hok; injection hok with h1; subst h1; exact hinv
        | some room =>
            rw [hr] at hok
            dsimp only at hok
            by_cases hu : u ∈ room.current_users
            · rw [if_pos hu] at hok
              by_cases hc : room.room_type = RoomType.temporary ∧
                  room.current_users.erase u = []
              · rw [if_pos hc] at hok
                exact Except.noConfusion hok
              · rw [if_neg hc] at hok
                injection hok with h1
                subst h1
                cases huru : alookup st.user_rooms u with
                | some rs => exact leave_upd_inv st r u room hr hinv _ rfl
                | none => exact leave_upd_inv st r u room hr hinv _ rfl
            · rw [if_neg hu] at hok
              injection hok with h1; subst h1; exact hinv
      · intro st r out hok hinv
        rw [delete_room] at hok
        cases hr : alookup st.rooms r with
        | none => rw [hr] at hok; injection hok with h1; subst h1; exact hinv
        | some room =>
            rw [hr] at hok
            exact Except.noConfusion hok
      · intro l st r st' hok hinv
        cases l with
        | nil => rw [leave_all] at hok; injection hok with h1; subst h1; exact hinv
        | cons v rest =>
            rw [leave_all] at hok
            exact Except.noConfusion hok
  | succ f ih =>
      obtain ⟨ihleave, ihdel, ihall⟩ := ih
      have hleave : ∀ st r u out, leave_room (f + 1) st r u = Except.ok out →
          roomInv st → roomInv out.2 := by
        intro st r u out hok hinv
        rw [leave_room] at hok
        cases hr : alookup st.rooms r with
        | none => rw [hr] at hok; injection hok with h1; subst h1; exact hinv
        | some room =>
            rw [hr] at hok
            dsimp only at hok
            by_cases hu : u ∈ room.current_users
            · rw [if_pos hu] at hok
              by_cases hc : room.room_type = RoomType.temporary ∧
                  room.current_users.erase u = []
              · rw [if_pos hc] at hok
                obtain ⟨p, hdel, hout⟩ := exceptMap_ok _ _ _ hok
                subst hout
                refine ihdel _ r p hdel ?_
                cases huru : alookup st.user_rooms u with
                | some rs => exact leave_upd_inv st r u room hr hinv _ rfl
                | none => exact leave_upd_inv st r u room hr hinv _ rfl
              · rw [if_neg hc] at hok
                injection hok with h1
                subst h1
                cases huru : alookup st.user_rooms u with
                | some rs => exact leave_upd_inv st r u room hr hinv _ rfl
                | none => exact leave_upd_inv st r u room hr hinv _ rfl
            · rw [if_neg hu] at hok
              injection hok with h1; subst h1; exact hinv
      refine ⟨hleave, ?_, ?_⟩
      · intro st r out hok hinv
        rw [delete_room] at hok
        cases hr : alookup st.rooms r with
        | none => rw [hr] at hok; injection hok with h1; subst h1; exact hinv
        | some room =>
            rw [hr] at hok
            dsimp only at hok
            obtain ⟨st1, hall, hrest⟩ := exceptBind_ok _ _ _ hok
            have hinv1 : roomInv st1 := ihall _ st r st1 hall hinv
            by_cases hs : (alookup st1.rooms r).isSome = true
            · rw [if_pos hs] at hrest
              injection hrest with h1
              subst h1
              intro p hp
              exact hinv1 p (mem_aerase _ _ p hp)
            · rw [if_neg hs] at hrest
              exact Except.noConfusion hrest
      · intro l st r st' hok hinv
        cases l with
        | nil => rw [leave_all] at hok; injection hok with h1; subst h1; exact hinv
        | cons v rest =>
            rw [leave_all] at hok
            obtain ⟨p, hlv, hrest⟩ := exceptBind_ok _ _ _ hok
            exact ihall rest p.2 r st' hrest (ihleave st r v p hlv hinv)

/-! ### Claim C2 -/

/-- A join or leave request, the operations claim C2 quantifies over. -/
inductive RoomOp where
  | join (room_id user_id : String)
  | leave (room_id user_id : String)
deriving DecidableEq, Repr

/-- Run a sequence of join/leave requests against the room manager. -/
def applyRoomOps (fuel : Nat) (st : RMState) : List RoomOp → Except String RMState
  | [] => Except.ok st
  | RoomOp.join r u :: rest => applyRoomOps fuel (join_room st r u).2 rest
  | RoomOp.leave r u :: rest =>
      (leave_room fuel st r u).bind (fun p => applyRoomOps fuel p.2 rest)

theorem applyRoomOps_inv : ∀ (ops : List RoomOp) (fuel : Nat) (st st' : RMState),
    roomInv st → applyRoomOps fuel st ops = Except.ok st' → roomInv st' := by
  intro ops
  induction ops with
  | nil =>
      intro fuel st st' h hok
      rw [applyRoomOps] at hok
      injection hok with h1
      subst h1
      exact h
  | cons op rest ih =>
      intro fuel st st' h hok
      cases op with
      | join r u =>
          rw [applyRoomOps] at hok
          exact ih fuel _ st' (join_room_inv st r u h) hok
      | leave r u =>
          rw [applyRoomOps] at hok
          obtain ⟨p, hlv, hrest⟩ := exceptBind_ok _ _ _ hok
          exact ih fuel p.2 st' ((rm_inv_all fuel).1 st r u p hlv h) hrest

/-- Claim C2: `join_room` returns false whenever the member count has
reached the capacity at call time, and otherwise adds the user; hence
under any sequence of join/leave operations (capacity is never mutated
after creation) every reachable state keeps member count ≤ capacity. -/
theorem C2_capacity (st : RMState) :
    (∀ r u room, alookup st.rooms r = some room →
      room.capacity ≤ room.current_users.length → (join_room st r u).1 = false) ∧
    (∀ r u room, alookup st.rooms r = some room →
      room.current_users.length < room.capacity →
      (join_room st r u).1 = true ∧
      ∃ room', alookup ((join_room st r u).2).rooms r = some room' ∧
        u ∈ room'.current_users) ∧
    (roomInv st → ∀ ops fuel st', applyRoomOps fuel st ops = Except.ok st' →
      roomInv st') := by
  refine ⟨?_, ?_, ?_⟩
  · intro r u room hr hc
    simp only [join_room, hr]
    rw [if_pos hc]
  · intro r u room hr hc
    have hc' : ¬ room.capacity ≤ room.current_users.length := by omega
    constructor
    · simp only [join_room, hr]
      rw [if_neg hc']
    · refine ⟨{ room with current_users := saddL room.current_users u }, ?_, ?_⟩
      · simp only [join_room, hr]
        rw [if_neg hc']
        exact alookup_aset_self _ _ _
      · exact mem_saddL_self _ _
  · intro hinv ops fuel st' hok
    exact applyRoomOps_inv ops fuel st st' hinv hok

/-- Witness for C2_capacity: a concrete room of capacity 1 with its owner
inside; a second user's join returns false, and a concrete join/leave
sequence keeps the invariant. -/
theorem C2_capacity_witness :
    alookup ((join_room (create_room {} "r1" "lounge" "u1" RoomType.public 1 0).2
        "r1" "u1").2).rooms "r1" =
      some { room_id := "r1", name := "lounge", room_type := RoomType.public,
             owner_id := "u1", capacity := 1, current_users := ["u1"],
             moderators := ["u1"], created_at := 0 } ∧
    (1 : Nat) ≤ (["u1"] : List String).length ∧
    (join_room ((join_room (create_room {} "r1" "lounge" "u1" RoomType.public 1 0).2
        "r1" "u1").2) "r1" "u2").1 = false := by
  refine ⟨by decide, by decide, ?_⟩
  exact (C2_capacity ((join_room (create_room {} "r1" "lounge" "u1" RoomType.public 1 0).2
      "r1" "u1").2)).1 "r1" "u2"
    { room_id := "r1", name := "lounge", room_type := RoomType.public,
      owner_id := "u1", capacity := 1, current_users := ["u1"],
      moderators := ["u1"], created_at := 0 } (by decide) (by decide)

/-! ### Claim C3 -/

/-- Claim C3 is contradicted by the code: deleting a TEMPORARY room that
still has a member does NOT return true without raising. The last member's
`leave_room` cascades into a recursive `delete_room` that removes the
record, and the outer `delete_room` then executes `del self.rooms[room_id]`
on a key that is no longer present — a KeyError. On a non-temporary room
with a member the same call returns true and raises nothing. -/
theorem C3_delete_room_raises :
    delete_room 10
      { rooms := [("r1", { room_id := "r1", name := "lounge",
                           room_type := RoomType.temporary, owner_id := "u1",
                           capacity := 5, current_users := ["u1"],
                           moderators := ["u1"] })],
        user_rooms := [("u1", ["r1"])] } "r1" = Except.error "KeyError" ∧
    delete_room 10
      { rooms := [("r1", { room_id := "r1", name := "lounge",
                           room_type := RoomType.public, owner_id := "u1",
                           capacity := 5, current_users := ["u1"],
                           moderators := ["u1"] })],
        user_rooms := [("u1", ["r1"])] } "r1" =
      Except.ok (true, { rooms := [], user_rooms := [("u1", [])] }) :=
  ⟨rfl, rfl⟩

/-! ### Claim C4 -/

/-- Claim C4: a successful `leave_room` on a member of a TEMPORARY room
that empties it removes the room from the directory; a non-temporary room,
or a temporary room with remaining members, still exists afterwards.
`2 ≤ fuel` suffices for the (at most one level deep) cascade. -/
theorem C4_temporary_cascade (fuel : Nat) (st : RMState) (r u : String)
    (room : SocialRoom) (hr : alookup st.rooms r = some room)
    (hu : u ∈ room.current_users) (hf : 2 ≤ fuel) :
    ∃ st', leave_room fuel st r u = Except.ok (true, st') ∧
      ((room.room_type = RoomType.temporary ∧ room.current_users.erase u = []) →
        alookup st'.rooms r = none) ∧
      (¬ (room.room_type = RoomType.temporary ∧ room.current_users.erase u = []) →
        (alookup st'.rooms r).isSome = true) := by
  obtain ⟨f, rfl⟩ : ∃ f, fuel = f + 2 := ⟨fuel - 2, by omega⟩
  have hmain : ∀ st2 : RMState,
      st2.rooms = aset st.rooms r
        { room with current_users := room.current_users.erase u,
                    moderators := room.moderators.erase u } →
      ((room.room_type = RoomType.temporary ∧ room.current_users.erase u = []) →
        delete_room (f + 1) st2 r =
          Except.ok (true, { st2 with rooms := aerase st2.rooms r })) := by
    intro st2 hst2 hc
    have h2 : alookup st2.rooms r =
        some { room with current_users := room.current_users.erase u,
                         moderators := room.moderators.erase u } := by
      rw [hst2]; exact alookup_aset_self _ _ _
    rw [delete_room, h2]
    dsimp only
    rw [hc.2]
    rw [leave_all]
    simp only [Except.bind]
    rw [if_pos (by rw [h2]; rfl)]
  have hsome : (alookup (aset st.rooms r
      { room with current_users := room.current_users.erase u,
                  moderators := room.moderators.erase u }) r).isSome = true := by
    rw [alookup_aset_self]; rfl
  rw [leave_room, hr]
  dsimp only
  rw [if_pos hu]
  by_cases hc : room.room_type = RoomType.temporary ∧ room.current_users.erase u = []
  · rw [if_pos hc]
    cases huru : alookup st.user_rooms u with
    | some rs =>
        dsimp only
        rw [hmain _ rfl hc]
        exact ⟨_, rfl, fun _ => alookup_aerase_self _ _, fun hnc => absurd hc hnc⟩
    | none =>
        dsimp only
        rw [hmain _ rfl hc]
        exact ⟨_, rfl, fun _ => alookup_aerase_self _ _, fun hnc => absurd hc hnc⟩
  · rw [if_neg hc]
    cases huru : alookup st.user_rooms u with
    | some rs =>
        dsimp only
        exact ⟨_, rfl, fun hcc => absurd hcc hc, fun _ => hsome⟩
    | none =>
        dsimp only
        exact ⟨_, rfl, fun hcc => absurd hcc hc, fun _ => hsome⟩

/-- A one-member temporary room, the concrete input of the C4 witness. -/
def c4room : SocialRoom :=
  { room_id := "r1", name := "lounge", room_type := RoomType.temporary,
    owner_id := "u1", capacity := 5, current_users := ["u1"],
    moderators := ["u1"] }

/-- Room-manager state holding just `c4room`. -/
def c4state : RMState :=
  { rooms := [("r1", c4room)], user_rooms := [("u1", ["r1"])] }

/-- Witness for C4_temporary_cascade: leaving a one-member temporary room
deletes it from the directory. -/
theorem C4_temporary_cascade_witness :
    alookup c4state.rooms "r1" = some c4room ∧
    "u1" ∈ c4room.current_users ∧
    ∃ st', leave_room 10 c4state "r1" "u1" = Except.ok (true, st') ∧
      alookup st'.rooms "r1" = none := by
  refine ⟨by decide, by decide, ?_⟩
  obtain ⟨st', h1, h2, _⟩ :=
    C4_temporary_cascade 10 c4state "r1" "u1" c4room (by decide) (by decide) (by omega)
  exact ⟨st', h1, h2 (by decide)⟩

/-! ### MessageManager (social_platform.py lines 606-775) -/

/-- `Message` dataclass (lines 96-109); `attachments` and `metadata`
omitted. `reactions` maps a reaction symbol to the reacting user ids. -/
structure Message where
  message_id : String
  sender_id : String
  room_id : Option String := none
  recipient_id : Option String := none
  content : String := ""
  message_type : String := "text"
  reactions : List (String × List String) := []
  timestamp : Nat := 0
  edited_at : Option Nat := none
deriving DecidableEq, Repr

/-- `MessageManager.__init__` (lines 609-613); `message_callbacks` hold no
manager state and are modelled at the facade layer. -/
structure MMState where
  messages : List (String × Message) := []
  room_messages : List (String × List String) := []
  user_messages : List (String × List String) := []
  next_id : Nat := 0
deriving DecidableEq, Repr

/-- Identifier produced by the n-th uuid draw of the message manager. -/
def freshMsgId (n : Nat) : String := "msg-" ++ toString n

/-- `MessageManager.send_message` (lines 615-647): store the message,
append its id to the room index and to the recipient index as applicable.
The message-event callback is wired at the facade layer below. -/
def send_message (st : MMState) (sender_id : String)
    (room_id recipient_id : Option String) (content message_type : String)
    (now : Nat) : Message × MMState :=
  let mid := freshMsgId st.next_id
  let msg : Message :=
    { message_id := mid, sender_id := sender_id, room_id := room_id,
      recipient_id := recipient_id, content := content,
      message_type := message_type, timestamp := now }
  let st1 := { st with messages := aset st.messages mid msg,
                       next_id := st.next_id + 1 }
  let st2 :=
    match room_id with
    | some r =>
        { st1 with
            room_messages := aset st1.room_messages r (((alookup st1.room_messages r).getD []) ++ [mid]) }
    | none => st1
  let st3 :=
    match recipient_id with
    | some uR =>
        { st2 with
            user_messages := aset st2.user_messages uR (((alookup st2.user_messages uR).getD []) ++ [mid]) }
    | none => st2
  (msg, st3)

/-- `MessageManager.add_reaction` (lines 686-702). -/
def add_reaction (st : MMState) (message_id user_id emoji : String) :
    Bool × MMState :=
  match alookup st.messages message_id with
  | none => (false, st)
  | some msg =>
      let reactions1 :=
        if (alookup msg.reactions emoji).isSome then msg.reactions
        else aset msg.reactions emoji []
      let lst := (alookup reactions1 emoji).getD []
      let reactions2 :=
        if user_id ∈ lst then reactions1
        else aset reactions1 emoji (lst ++ [user_id])
      (true,
       { st with
           messages := aset st.messages message_id { msg with reactions := reactions2 } })

/-- `MessageManager.remove_reaction` (lines 704-723): removing the last
reactor for a symbol deletes the symbol's entry. -/
def remove_reaction (st : MMState) (message_id user_id emoji : String) :
    Bool × MMState :=
  match alookup st.messages message_id with
  | none => (false, st)
  | some msg =>
      match alookup msg.reactions emoji with
      | some lst =>
          if user_id ∈ lst then
            let lst1 := lst.erase user_id
            let reactions1 :=
              if lst1 = [] then aerase msg.reactions emoji
              else aset msg.reactions emoji lst1
            (true,
             { st with
                 messages := aset st.messages message_id { msg with reactions := reactions1 } })
          else (false, st)
      | none => (false, st)

/-- `MessageManager.edit_message` (lines 725-738): only the sender may
edit; sets the edited timestamp. -/
def edit_message (st : MMState) (message_id new_content user_id : String)
    (now : Nat) : Bool × MMState :=
  match alookup st.messages message_id with
  | none => (false, st)
  | some msg =>
      if msg.sender_id ≠ user_id then (false, st)
      else
        (true,
         { st with
             messages := aset st.messages message_id { msg with content := new_content, edited_at := some now } })

/-- `MessageManager.delete_message` (lines 740-762): only the sender may
delete; removes the id from the room/recipient indexes, then the record. -/
def delete_message (st : MMState) (message_id user_id : String) :
    Bool × MMState :=
  match alookup st.messages message_id with
  | none => (false, st)
  | some msg =>
      if msg.sender_id ≠ user_id then (false, st)
      else
        let st1 :=
          match msg.room_id with
          | some r =>
              match alookup st.room_messages r with
              | some ids =>
                  if message_id ∈ ids then
                    { st with room_messages := aset st.room_messages r (ids.erase message_id) }
                  else st
              | none => st
          | none => st
        let st2 :=
          match msg.recipient_id with
          | some uR =>
              match alookup st1.user_messages uR with
              | some ids =>
                  if message_id ∈ ids then
                    { st1 with user_messages := aset st1.user_messages uR (ids.erase message_id) }
                  else st1
              | none => st1
          | none => st1
        (true, { st2 with messages := aerase st2.messages message_id })

theorem aset_of_none {α : Type} (m : List (String × α)) (k : String) (v : α)
    (h : alookup m k = none) : aset m k v = m ++ [(k, v)] := by
  induction m with
  | nil => simp [aset]
  | cons p rest ih =>
      obtain ⟨a, b⟩ := p
      by_cases ha : a = k
      · simp [alookup, ha] at h
      · simp only [alookup, if_neg ha] at h
        simp [aset, ha, ih h]

theorem aerase_aset_none {α : Type} (m : List (String × α)) (k : String) (v : α)
    (h : alookup m k = none) : aerase (aset m k v) k = m := by
  rw [aset_of_none m k v h]
  have : aerase (m ++ [(k, v)]) k = aerase m k ++ aerase [(k, v)] k := by
    simp [aerase]
  rw [this, alookup_none_aerase m k h]
  simp [aerase]

theorem aset_aset {α : Type} (m : List (String × α)) (k : String) (v w : α) :
    aset (aset m k v) k w = aset m k w := by
  induction m with
  | nil => simp [aset]
  | cons p rest ih =>
      obtain ⟨a, b⟩ := p
      by_cases ha : a = k
      · simp [aset, ha]
      · simp [aset, ha, ih]

/-! ### Claim C6 -/

/-- Claim C6: `edit_message` and `delete_message` invoked by any
identifier other than the stored message's sender return false and leave
the whole manager state (record, indexes, store) unchanged. -/
theorem C6_foreign_edit_delete (st : MMState) (mid c u : String) (now : Nat)
    (msg : Message) (hm : alookup st.messages mid = some msg)
    (hu : msg.sender_id ≠ u) :
    edit_message st mid c u now = (false, st) ∧
    delete_message st mid u = (false, st) := by
  constructor
  · rw [edit_message, hm]
    dsimp only
    rw [if_pos hu]
  · rw [delete_message, hm]
    dsimp only
    rw [if_pos hu]

/-- A stored message from alice, the concrete input of the C6/C7 witnesses. -/
def c6msg : Message :=
  { message_id := "m1", sender_id := "alice", room_id := some "r1",
    content := "hello", timestamp := 0 }

/-- Message-manager state holding just `c6msg`. -/
def c6state : MMState :=
  { messages := [("m1", c6msg)], room_messages := [("r1", ["m1"])],
    user_messages := [], next_id := 1 }

/-- Witness for C6_foreign_edit_delete: bob can neither edit nor delete
alice's message. -/
theorem C6_foreign_edit_delete_witness :
    alookup c6state.messages "m1" = some c6msg ∧
    c6msg.sender_id ≠ "bob" ∧
    edit_message c6state "m1" "changed" "bob" 7 = (false, c6state) ∧
    delete_message c6state "m1" "bob" = (false, c6state) := by
  refine ⟨by decide, by decide, ?_⟩
  exact C6_foreign_edit_delete c6state "m1" "changed" "bob" 7 c6msg
    (by decide) (by decide)

/-! ### Claim C7 -/

/-- Claim C7: starting from a message with no reaction under symbol e,
`add_reaction` then `remove_reaction` with the same (message, user, emoji)
succeed and leave the reactions map without the key e — indeed exactly as
it was, with no empty-list residue. -/
theorem C7_reaction_round_trip (st : MMState) (mid u e : String) (msg : Message)
    (hm : alookup st.messages mid = some msg)
    (he : alookup msg.reactions e = none) :
    (add_reaction st mid u e).1 = true ∧
    (remove_reaction (add_reaction st mid u e).2 mid u e).1 = true ∧
    ∃ msg', alookup ((remove_reaction (add_reaction st mid u e).2 mid u e).2).messages mid
        = some msg' ∧
      alookup msg'.reactions e = none ∧ msg'.reactions = msg.reactions := by
  have hadd : add_reaction st mid u e =
      (true,
       { st with
           messages := aset st.messages mid
             { msg with reactions := aset msg.reactions e [u] } }) := by
    simp [add_reaction, hm, he, alookup_aset_self, aset_aset]
  have hrem : remove_reaction (add_reaction st mid u e).2 mid u e =
      (true, { st with messages := aset st.messages mid msg }) := by
    rw [hadd]
    simp [remove_reaction, alookup_aset_self, aerase_aset_none _ _ _ he, aset_aset]
  refine ⟨by rw [hadd], by rw [hrem], msg, ?_, he, rfl⟩
  rw [hrem]
  exact alookup_aset_self _ _ _

/-- Witness for C7_reaction_round_trip: bob reacts to alice's message and
withdraws; no trace of the emoji key remains. -/
theorem C7_reaction_round_trip_witness :
    alookup c6state.messages "m1" = some c6msg ∧
    alookup c6msg.reactions "+1" = none ∧
    (add_reaction c6state "m1" "bob" "+1").1 = true ∧
    (remove_reaction (add_reaction c6state "m1" "bob" "+1").2 "m1" "bob" "+1").1 = true ∧
    ∃ msg', alookup
        ((remove_reaction (add_reaction c6state "m1" "bob" "+1").2 "m1" "bob" "+1").2).messages
        "m1" = some msg' ∧ alookup msg'.reactions "+1" = none := by
  refine ⟨by decide, by decide, ?_⟩
  obtain ⟨h1, h2, msg', h3, h4, _⟩ :=
    C7_reaction_round_trip c6state "m1" "bob" "+1" c6msg (by decide) (by decide)
  exact ⟨h1, h2, msg', h3, h4⟩

/-! ### UserManager (social_platform.py lines 129-308) -/

/-- `UserProfile` dataclass (lines 50-66); `avatar_url`, `preferences`,
`privacy_settings`, `interests`, `achievements`, `hashed_password` and
`metadata` are carried by no claim and omitted. -/
structure UserProfile where
  user_id : String
  username : String
  display_name : String
  bio : Option String := none
  status : UserStatus := UserStatus.online
  created_at : Nat := 0
  last_active : Nat := 0
deriving DecidableEq, Repr

/-- A session record (lines 215-220): owning user and timestamps. -/
structure Session where
  user_id : String
  created_at : Nat := 0
  last_activity : Nat := 0
deriving DecidableEq, Repr

/-- `UserManager.__init__` (lines 132-135); presence callbacks hold no
manager state and are wired at the facade layer. -/
structure UMState where
  users : List (String × UserProfile) := []
  active_sessions : List (String × Session) := []
  next_id : Nat := 0
deriving DecidableEq, Repr

/-- Identifier produced by the n-th uuid draw of the user manager. The
encoding (n repetitions of one character) keeps distinct draws provably
distinct, the defining property of the uuid source. -/
def freshUserMgrId (n : Nat) : String := String.mk (List.replicate n 's')

theorem freshUserMgrId_inj (m n : Nat) (h : freshUserMgrId m = freshUserMgrId n) :
    m = n := by
  unfold freshUserMgrId at h
  injection h with h1
  have := congrArg List.length h1
  simpa using this

/-- The `user_data` map consumed by `create_user` (lines 137-160):
`username` is required (`user_data["username"]` raises otherwise — a fatal
construction error per the spec), everything else optional. -/
structure UserData where
  user_id : Option String := none
  username : String
  display_name : Option String := none
  bio : Option String := none
deriving DecidableEq, Repr

/-- The allow-listed mutable fields `update_user` (lines 173-192) can
touch through `setattr`; identifier and creation timestamp are excluded
by the source's filter. -/
structure UserUpdates where
  username : Option String := none
  display_name : Option String := none
  bio : Option (Option String) := none
  status : Option UserStatus := none
deriving DecidableEq, Repr

/-- `UserManager.set_user_status` (lines 194-208): false on unknown user,
else update status and last-active (the presence callback is facade-side). -/
def set_user_status (st : UMState) (user_id : String) (status : UserStatus)
    (now : Nat) : Bool × UMState :=
  match alookup st.users user_id with
  | none => (false, st)
  | some p =>
      (true,
       { st with
           users := aset st.users user_id { p with status := status, last_active := now } })

/-- `UserManager.create_session` (lines 210-225): register the session
under a fresh identifier, then set the user online. -/
def create_session (st : UMState) (user_id : String) (now : Nat) :
    String × UMState :=
  let sid := freshUserMgrId st.next_id
  let st1 :=
    { st with
        active_sessions := aset st.active_sessions sid
          { user_id := user_id, created_at := now, last_activity := now },
        next_id := st.next_id + 1 }
  (sid, (set_user_status st1 user_id UserStatus.online now).2)

/-- `UserManager.end_session` (lines 227-246): false on unknown session;
remove it; if the user has no remaining session, set the user offline. -/
def end_session (st : UMState) (session_id : String) (now : Nat) :
    Bool × UMState :=
  match alookup st.active_sessions session_id with
  | none => (false, st)
  | some s =>
      let st1 := { st with active_sessions := aerase st.active_sessions session_id }
      if st1.active_sessions.filter (fun q => q.2.user_id = s.user_id) = [] then
        (true, (set_user_status st1 s.user_id UserStatus.offline now).2)
      else (true, st1)

/-- `UserManager.create_user` (lines 137-167): take the supplied user id
or a drawn one (the uuid default of `user_data.get` is drawn either way),
store a fresh profile under it with no existence check, then open an
initial session. The returned profile is the stored (aliased) object. -/
def create_user (st : UMState) (data : UserData) (now : Nat) :
    UserProfile × UMState :=
  let uid := data.user_id.getD (freshUserMgrId st.next_id)
  let profile : UserProfile :=
    { user_id := uid, username := data.username,
      display_name := data.display_name.getD data.username,
      bio := data.bio, created_at := now, last_active := now }
  let st1 := { st with users := aset st.users uid profile,
                       next_id := st.next_id + 1 }
  let st2 := (create_session st1 uid now).2
  ((alookup st2.users uid).getD profile, st2)

/-- `UserManager.update_user` (lines 173-192): patch the allow-listed
fields of a known profile and touch last-active. -/
def update_user (st : UMState) (user_id : String) (upd : UserUpdates)
    (now : Nat) : Option UserProfile × UMState :=
  match alookup st.users user_id with
  | none => (none, st)
  | some p =>
      let p1 : UserProfile :=
        { p with username := upd.username.getD p.username,
                 display_name := upd.display_name.getD p.display_name,
                 bio := upd.bio.getD p.bio,
                 status := upd.status.getD p.status,
                 last_active := now }
      (some p1, { st with users := aset st.users user_id p1 })

/-! ### Claim C8 -/

/-- Claim C8: ending a user's only remaining session sets the user's
status to offline; ending a session while another session of the same
user remains leaves the user map (hence the status) unchanged. -/
theorem C8_end_session (st : UMState) (sid : String) (now : Nat) (s : Session)
    (p : UserProfile) (hs : alookup st.active_sessions sid = some s)
    (hp : alookup st.users s.user_id = some p) :
    ((aerase st.active_sessions sid).filter (fun q => q.2.user_id = s.user_id) = [] →
      end_session st sid now =
        (true,
         { users := aset st.users s.user_id
             { p with status := UserStatus.offline, last_active := now },
           active_sessions := aerase st.active_sessions sid,
           next_id := st.next_id })) ∧
    ((aerase st.active_sessions sid).filter (fun q => q.2.user_id = s.user_id) ≠ [] →
      end_session st sid now =
        (true,
         { users := st.users,
           active_sessions := aerase st.active_sessions sid,
           next_id := st.next_id })) := by
  constructor
  · intro hempty
    rw [end_session, hs]
    dsimp only
    rw [if_pos hempty]
    rw [set_user_status]
    rw [show alookup ({ st with active_sessions := aerase st.active_sessions sid } : UMState).users
        s.user_id = some p from hp]
  · intro hrest
    rw [end_session, hs]
    dsimp only
    rw [if_neg hrest]

/-- The concrete user and sessions of the C8 witness. -/
def c8profile : UserProfile :=
  { user_id := "u1", username := "alice", display_name := "Alice",
    status := UserStatus.online }

/-- One user with two open sessions. -/
def c8state : UMState :=
  { users := [("u1", c8profile)],
    active_sessions := [(freshUserMgrId 0, { user_id := "u1" }),
                        (freshUserMgrId 1, { user_id := "u1" })],
    next_id := 2 }

/-- Witness for C8_end_session: with two sessions open, ending one leaves
alice online; ending the remaining one sets her offline. -/
theorem C8_end_session_witness :
    alookup c8state.active_sessions (freshUserMgrId 0) =
      some { user_id := "u1" } ∧
    alookup c8state.users "u1" = some c8profile ∧
    end_session c8state (freshUserMgrId 0) 5 =
      (true,
       { users := [("u1", c8profile)],
         active_sessions := [(freshUserMgrId 1, { user_id := "u1" })],
         next_id := 2 }) ∧
    end_session
        { users := [("u1", c8profile)],
          active_sessions := [(freshUserMgrId 1, { user_id := "u1" })],
          next_id := 2 } (freshUserMgrId 1) 6 =
      (true,
       { users := [("u1", { c8profile with status := UserStatus.offline, last_active := 6 })],
         active_sessions := [],
         next_id := 2 }) := by
  refine ⟨by decide, by decide, ?_, ?_⟩
  · have h := (C8_end_session c8state (freshUserMgrId 0) 5
      { user_id := "u1" } c8profile (by decide) (by decide)).2 (by decide)
    rw [h]
    decide
  · have h := (C8_end_session
      { users := [("u1", c8profile)],
        active_sessions := [(freshUserMgrId 1, { user_id := "u1" })],
        next_id := 2 } (freshUserMgrId 1) 6
      { user_id := "u1" } c8profile (by decide) (by decide)).1 (by decide)
    rw [h]
    decide

/-! ### Claim C10 -/

/-- Claim C10 (implicit): `create_user` with a `user_id` that is already
registered performs no uniqueness check: it silently replaces the stored
profile with a fresh one built from the supplied data and opens a new
session for that identifier, leaving every previously open session in
place. The freshness hypothesis is the uuid-uniqueness assumption for the
drawn session identifier. -/
theorem C10_create_user_overwrites (st : UMState) (data : UserData) (now : Nat)
    (u : String) (old : UserProfile)
    (hdata : data.user_id = some u)
    (_hold : alookup st.users u = some old)
    (hfresh : alookup st.active_sessions (freshUserMgrId (st.next_id + 1)) = none) :
    create_user st data now =
      ({ user_id := u, username := data.username,
         display_name := data.display_name.getD data.username, bio := data.bio,
         status := UserStatus.online, created_at := now, last_active := now },
       { users := aset st.users u
           { user_id := u, username := data.username,
             display_name := data.display_name.getD data.username, bio := data.bio,
             status := UserStatus.online, created_at := now, last_active := now },
         active_sessions := aset st.active_sessions (freshUserMgrId (st.next_id + 1))
           { user_id := u, created_at := now, last_activity := now },
         next_id := st.next_id + 2 }) ∧
    alookup ((create_user st data now).2).users u =
      some { user_id := u, username := data.username,
             display_name := data.display_name.getD data.username, bio := data.bio,
             status := UserStatus.online, created_at := now, last_active := now } ∧
    alookup ((create_user st data now).2).active_sessions
        (freshUserMgrId (st.next_id + 1)) =
      some { user_id := u, created_at := now, last_activity := now } ∧
    (∀ sid' s', alookup st.active_sessions sid' = some s' →
      alookup ((create_user st data now).2).active_sessions sid' = some s') := by
  have heq : create_user st data now =
      ({ user_id := u, username := data.username,
         display_name := data.display_name.getD data.username, bio := data.bio,
         status := UserStatus.online, created_at := now, last_active := now },
       { users := aset st.users u
           { user_id := u, username := data.username,
             display_name := data.display_name.getD data.username, bio := data.bio,
             status := UserStatus.online, created_at := now, last_active := now },
         active_sessions := aset st.active_sessions (freshUserMgrId (st.next_id + 1))
           { user_id := u, created_at := now, last_activity := now },
         next_id := st.next_id + 2 }) := by
    simp [create_user, create_session, set_user_status, hdata,
      alookup_aset_self, aset_aset]
  refine ⟨heq, ?_, ?_, ?_⟩
  · rw [heq]
    exact alookup_aset_self _ _ _
  · rw [heq]
    exact alookup_aset_self _ _ _
  · intro sid' s' hs'
    have hne : sid' ≠ freshUserMgrId (st.next_id + 1) := by
      intro hh
      rw [hh, hfresh] at hs'
      cases hs'
    rw [heq]
    rw [alookup_aset_ne _ _ _ _ hne]
    exact hs'

/-- The already-registered user of the C10 witness. -/
def c10old : UserProfile :=
  { user_id := "u1", username := "alice", display_name := "Alice" }

/-- State with `c10old` registered and one open session. -/
def c10state : UMState :=
  { users := [("u1", c10old)],
    active_sessions := [(freshUserMgrId 0, { user_id := "u1" })],
    next_id := 1 }

/-- Registration data reusing the taken identifier "u1". -/
def c10data : UserData := { user_id := some "u1", username := "alice2" }

/-- Witness for C10_create_user_overwrites: re-registering "u1" replaces
alice's profile with the fresh one, opens a second session and keeps the
first session. -/
theorem C10_create_user_overwrites_witness :
    c10data.user_id = some "u1" ∧
    alookup c10state.users "u1" = some c10old ∧
    alookup ((create_user c10state c10data 9).2).users "u1" =
      some { user_id := "u1", username := "alice2", display_name := "alice2",
             status := UserStatus.online, created_at := 9, last_active := 9 } ∧
    alookup ((create_user c10state c10data 9).2).active_sessions (freshUserMgrId 2) =
      some { user_id := "u1", created_at := 9, last_activity := 9 } ∧
    alookup ((create_user c10state c10data 9).2).active_sessions (freshUserMgrId 0) =
      some { user_id := "u1" } := by
  have h := C10_create_user_overwrites c10state c10data 9 "u1" c10old rfl
    (by decide) (by decide)
  exact ⟨rfl, by decide, h.2.1, h.2.2.1,
    h.2.2.2 (freshUserMgrId 0) { user_id := "u1" } (by decide)⟩

theorem alookup_none_iff {α : Type} (m : List (String × α)) (k : String) :
    alookup m k = none ↔ ∀ p ∈ m, p.1 ≠ k := by
  induction m with
  | nil => simp [alookup]
  | cons p rest ih =>
      obtain ⟨a, b⟩ := p
      by_cases ha : a = k
      · subst ha
        simp [alookup]
      · simp [alookup, ha, ih]

theorem keys_aset_some {α : Type} (m : List (String × α)) (k : String) (v w : α)
    (h : alookup m k = some w) :
    (aset m k v).map Prod.fst = m.map Prod.fst := by
  induction m with
  | nil => simp [alookup] at h
  | cons p rest ih =>
      obtain ⟨a, b⟩ := p
      by_cases ha : a = k
      · subst ha
        simp [aset]
      · simp only [alookup, if_neg ha] at h
        simp [aset, ha, ih h]

theorem keys_aset_nodup {α : Type} (m : List (String × α)) (k : String) (v : α)
    (h : (m.map Prod.fst).Nodup) : ((aset m k v).map Prod.fst).Nodup := by
  cases hc : alookup m k with
  | some w => rw [keys_aset_some m k v w hc]; exact h
  | none =>
      rw [aset_of_none m k v hc, List.map_append]
      have hk : k ∉ m.map Prod.fst := by
        intro hmem
        obtain ⟨p, hp, hpk⟩ := List.mem_map.mp hmem
        exact (alookup_none_iff m k).mp hc p hp hpk
      simp [List.nodup_append, h, hk]

theorem keys_aerase_nodup {α : Type} (m : List (String × α)) (k : String)
    (h : (m.map Prod.fst).Nodup) : ((aerase m k).map Prod.fst).Nodup :=
  ((List.filter_sublist m).map Prod.fst).nodup h

theorem mem_aset_nodup {α : Type} (m : List (String × α)) (k : String) (v : α)
    (h : (m.map Prod.fst).Nodup) (p : String × α) (hp : p ∈ aset m k v) :
    p = (k, v) ∨ (p ∈ m ∧ p.1 ≠ k) := by
  induction m with
  | nil =>
      left
      simpa [aset] using hp
  | cons q rest ih =>
      obtain ⟨a, b⟩ := q
      simp only [List.map_cons, List.nodup_cons] at h
      obtain ⟨hna, hrest⟩ := h
      by_cases ha : a = k
      · subst ha
        simp only [aset, if_pos rfl] at hp
        rcases List.mem_cons.mp hp with h1 | h1
        · exact Or.inl h1
        · refine Or.inr ⟨List.mem_cons_of_mem _ h1, ?_⟩
          intro hpk
          exact hna (List.mem_map.mpr ⟨p, h1, hpk⟩)
      · simp only [aset, if_neg ha] at hp
        rcases List.mem_cons.mp hp with h1 | h1
        · subst h1
          exact Or.inr ⟨List.mem_cons_self _ _, ha⟩
        · rcases ih hrest h1 with h2 | h2
          · exact Or.inl h2
          · exact Or.inr ⟨List.mem_cons_of_mem _ h2.1, h2.2⟩

theorem mem_aerase_iff {α : Type} (m : List (String × α)) (k : String)
    (p : String × α) : p ∈ aerase m k ↔ p ∈ m ∧ p.1 ≠ k := by
  simp [aerase, List.mem_filter]

theorem nodup_keys_eq {α : Type} (m : List (String × α))
    (h : (m.map Prod.fst).Nodup) (p q : String × α)
    (hp : p ∈ m) (hq : q ∈ m) (hk : p.1 = q.1) : p = q := by
  induction m with
  | nil => cases hp
  | cons r rest ih =>
      simp only [List.map_cons, List.nodup_cons] at h
      obtain ⟨hna, hrest⟩ := h
      rcases List.mem_cons.mp hp with h1 | h1 <;>
        rcases List.mem_cons.mp hq with h2 | h2
      · rw [h1, h2]
      · subst h1
        exact absurd (List.mem_map.mpr ⟨q, h2, hk.symm⟩) hna
      · subst h2
        exact absurd (List.mem_map.mpr ⟨p, h1, hk⟩) hna
      · exact ih hrest h1 h2

/-! ### Claim C9 -/

/-- One request against the UserDirectory, covering the five operations
the claim quantifies over. -/
inductive UserOp where
  | createUser (data : UserData)
  | createSession (user_id : String)
  | endSession (session_id : String)
  | setStatus (user_id : String) (status : UserStatus)
  | updateUser (user_id : String) (upd : UserUpdates)
deriving DecidableEq, Repr

/-- Whether an operation is one of the pure session-lifecycle operations
(user creation included); `set_user_status` and `update_user` are the two
that can decouple status from sessions. -/
def isSessionOp : UserOp → Bool
  | UserOp.setStatus _ _ => false
  | UserOp.updateUser _ _ => false
  | _ => true

/-- Apply one operation at time `now`. -/
def applyUserOp (st : UMState) (op : UserOp) (now : Nat) : UMState :=
  match op with
  | UserOp.createUser data => (create_user st data now).2
  | UserOp.createSession uid => (create_session st uid now).2
  | UserOp.endSession sid => (end_session st sid now).2
  | UserOp.setStatus uid s => (set_user_status st uid s now).2
  | UserOp.updateUser uid upd => (update_user st uid upd now).2

/-- Apply a request sequence, the wall clock advancing one tick per call. -/
def applyUserOps (st : UMState) (t : Nat) : List UserOp → UMState
  | [] => st
  | op :: rest => applyUserOps (applyUserOp st op t) (t + 1) rest

/-- The user manager as constructed (line 132-135): no users, no sessions. -/
def umInitial : UMState := {}

/-- The claimed invariant: a user's status is online exactly when some
active session references that user. -/
def userOnlineInv (st : UMState) : Prop :=
  ∀ p ∈ st.users,
    (p.2.status = UserStatus.online ↔
      ∃ q ∈ st.active_sessions, q.2.user_id = p.1)

instance (st : UMState) : Decidable (userOnlineInv st) := by
  unfold userOnlineInv
  infer_instance

/-- Claim C9, as stated, is false: `set_user_status` is one of the listed
UserDirectory operations, and setting a freshly registered (hence online,
with one open session) user to AWAY yields a reachable state whose session
still references the user while the status is not online. -/
theorem C9_counterexample :
    ¬ userOnlineInv (applyUserOps umInitial 0
      [UserOp.createUser { user_id := some "u1", username := "alice" },
       UserOp.setStatus "u1" UserStatus.away]) := by
  decide

/-- Session-key generation invariant: every session key was drawn from
the manager's uuid counter at some earlier point. -/
def genKeys (st : UMState) : Prop :=
  ∀ k ∈ st.active_sessions.map Prod.fst, ∃ n, n < st.next_id ∧ k = freshUserMgrId n

/-- The induction invariant behind the amended claim C9: the online-iff-
session property together with well-formedness of the two dicts (their
key lists are duplicate-free, as for Python dicts) and `genKeys`. -/
def umInv (st : UMState) : Prop :=
  userOnlineInv st ∧ (st.users.map Prod.fst).Nodup ∧
  (st.active_sessions.map Prod.fst).Nodup ∧ genKeys st

theorem fresh_not_mem (st : UMState) (hg : genKeys st) (N : Nat)
    (hN : st.next_id ≤ N) :
    alookup st.active_sessions (freshUserMgrId N) = none := by
  rw [alookup_none_iff]
  intro p hp hpk
  obtain ⟨n, hn, hk⟩ := hg p.1 (List.mem_map.mpr ⟨p, hp, rfl⟩)
  rw [hpk] at hk
  have := freshUserMgrId_inj N n hk
  omega

theorem genKeys_mono (S S' : UMState)
    (hsub : ∀ k ∈ S'.active_sessions.map Prod.fst,
      k ∈ S.active_sessions.map Prod.fst)
    (hnext : S.next_id ≤ S'.next_id) (hg : genKeys S) : genKeys S' := by
  intro x hx
  obtain ⟨n, hn, he⟩ := hg x (hsub x hx)
  exact ⟨n, by omega, he⟩

theorem keys_aerase_sub {α : Type} (m : List (String × α)) (k x : String)
    (hx : x ∈ (aerase m k).map Prod.fst) : x ∈ m.map Prod.fst := by
  obtain ⟨q, hq, hqk⟩ := List.mem_map.mp hx
  exact List.mem_map.mpr ⟨q, mem_aerase _ _ _ hq, hqk⟩

/-- Core of `create_session`: after registering a fresh session for `uid`
and forcing `uid` online, the full invariant holds, provided it held for
every user other than `uid` before the call. -/
theorem create_session_core (st : UMState) (uid : String) (now : Nat)
    (hU : (st.users.map Prod.fst).Nodup)
    (hS : (st.active_sessions.map Prod.fst).Nodup)
    (hg : genKeys st)
    (hother : ∀ p ∈ st.users, p.1 ≠ uid →
      (p.2.status = UserStatus.online ↔
        ∃ q ∈ st.active_sessions, q.2.user_id = p.1)) :
    umInv ((create_session st uid now).2) := by
  have hfree : alookup st.active_sessions (freshUserMgrId st.next_id) = none :=
    fresh_not_mem st hg st.next_id (le_refl _)
  have happ : aset st.active_sessions (freshUserMgrId st.next_id)
      { user_id := uid, created_at := now, last_activity := now } =
      st.active_sessions ++ [(freshUserMgrId st.next_id,
        { user_id := uid, created_at := now, last_activity := now })] :=
    aset_of_none _ _ _ hfree
  have hkeyfresh : freshUserMgrId st.next_id ∉ st.active_sessions.map Prod.fst := by
    intro hmem
    obtain ⟨p, hp, hpk⟩ := List.mem_map.mp hmem
    exact (alookup_none_iff _ _).mp hfree p hp hpk
  have hSnodup : ((st.active_sessions ++ [(freshUserMgrId st.next_id,
      ({ user_id := uid, created_at := now, last_activity := now } : Session))]).map
      Prod.fst).Nodup := by
    rw [List.map_append]
    simp [List.nodup_append, hS, hkeyfresh]
  have hgen : ∀ k ∈ (st.active_sessions ++ [(freshUserMgrId st.next_id,
      ({ user_id := uid, created_at := now, last_activity := now } : Session))]).map
      Prod.fst, ∃ n, n < st.next_id + 1 ∧ k = freshUserMgrId n := by
    intro k hk
    rw [List.map_append] at hk
    rcases List.mem_append.mp hk with h1 | h1
    · obtain ⟨n, hn, he⟩ := hg k h1
      exact ⟨n, by omega, he⟩
    · simp only [List.map_cons, List.map_nil, List.mem_singleton] at h1
      exact ⟨st.next_id, by omega, h1⟩
  have hsessEx : ∃ q ∈ st.active_sessions ++ [(freshUserMgrId st.next_id,
      ({ user_id := uid, created_at := now, last_activity := now } : Session))],
      q.2.user_id = uid :=
    ⟨(freshUserMgrId st.next_id, { user_id := uid, created_at := now, last_activity := now }),
     List.mem_append_right _ (List.mem_singleton_self _), rfl⟩
  have hsessIff : ∀ x, x ≠ uid →
      ((∃ q ∈ st.active_sessions ++ [(freshUserMgrId st.next_id,
        ({ user_id := uid, created_at := now, last_activity := now } : Session))],
        q.2.user_id = x) ↔
       (∃ q ∈ st.active_sessions, q.2.user_id = x)) := by
    intro x hx
    constructor
    · rintro ⟨q, hq, hqu⟩
      rcases List.mem_append.mp hq with h1 | h1
      · exact ⟨q, h1, hqu⟩
      · rw [List.mem_singleton.mp h1] at hqu
        exact absurd hqu.symm hx
    · rintro ⟨q, hq, hqu⟩
      exact ⟨q, List.mem_append_left _ hq, hqu⟩
  cases hu : alookup st.users uid with
  | none =>
      have heq : (create_session st uid now).2 =
          { users := st.users,
            active_sessions := st.active_sessions ++ [(freshUserMgrId st.next_id,
              { user_id := uid, created_at := now, last_activity := now })],
            next_id := st.next_id + 1 } := by
        rw [← happ]
        simp [create_session, set_user_status, hu]
      rw [heq]
      refine ⟨?_, hU, hSnodup, hgen⟩
      intro p hp
      have hne : p.1 ≠ uid := (alookup_none_iff _ _).mp hu p hp
      exact (hother p hp hne).trans (hsessIff p.1 hne).symm
  | some p0 =>
      have heq : (create_session st uid now).2 =
          { users := aset st.users uid
              { p0 with status := UserStatus.online, last_active := now },
            active_sessions := st.active_sessions ++ [(freshUserMgrId st.next_id,
              { user_id := uid, created_at := now, last_activity := now })],
            next_id := st.next_id + 1 } := by
        rw [← happ]
        simp [create_session, set_user_status, hu]
      rw [heq]
      refine ⟨?_, keys_aset_nodup _ _ _ hU, hSnodup, hgen⟩
      intro p hp
      rcases mem_aset_nodup _ _ _ hU p hp with h1 | ⟨h1, hne⟩
      · rw [h1]
        exact ⟨fun _ => hsessEx, fun _ => rfl⟩
      · exact (hother p h1 hne).trans (hsessIff p.1 hne).symm

theorem create_session_inv (st : UMState) (uid : String) (now : Nat)
    (h : umInv st) : umInv ((create_session st uid now).2) :=
  create_session_core st uid now h.2.1 h.2.2.1 h.2.2.2 (fun p hp _ => h.1 p hp)

theorem create_user_inv (st : UMState) (data : UserData) (now : Nat)
    (h : umInv st) : umInv ((create_user st data now).2) := by
  obtain ⟨hinv, hU, hS, hg⟩ := h
  show umInv ((create_session
    { st with
        users := aset st.users (data.user_id.getD (freshUserMgrId st.next_id))
          { user_id := data.user_id.getD (freshUserMgrId st.next_id),
            username := data.username,
            display_name := data.display_name.getD data.username,
            bio := data.bio, created_at := now, last_active := now },
        next_id := st.next_id + 1 }
    (data.user_id.getD (freshUserMgrId st.next_id)) now).2)
  apply create_session_core
  · exact keys_aset_nodup _ _ _ hU
  · exact hS
  · intro k hk
    obtain ⟨n, hn, he⟩ := hg k hk
    exact ⟨n, Nat.lt_succ_of_lt hn, he⟩
  · intro p hp hne
    rcases mem_aset_nodup _ _ _ hU p hp with h1 | ⟨h1, _⟩
    · rw [h1] at hne
      exact absurd rfl hne
    · exact hinv p h1

theorem end_session_inv (st : UMState) (sid : String) (now : Nat)
    (h : umInv st) : umInv ((end_session st sid now).2) := by
  obtain ⟨hinv, hU, hS, hg⟩ := h
  cases hs : alookup st.active_sessions sid with
  | none =>
      have heq : (end_session st sid now).2 = st := by
        simp [end_session, hs]
      rw [heq]
      exact ⟨hinv, hU, hS, hg⟩
  | some s =>
      have hmem_s : (sid, s) ∈ st.active_sessions := alookup_mem _ _ _ hs
      have hexfwd : ∀ x, x ≠ s.user_id →
          (∃ q ∈ st.active_sessions, q.2.user_id = x) →
          ∃ q ∈ aerase st.active_sessions sid, q.2.user_id = x := by
        rintro x hx ⟨q, hq, hqu⟩
        by_cases hqk : q.1 = sid
        · have hq2 : q = (sid, s) := nodup_keys_eq _ hS q (sid, s) hq hmem_s hqk
          rw [hq2] at hqu
          exact absurd hqu.symm hx
        · exact ⟨q, (mem_aerase_iff _ _ _).mpr ⟨hq, hqk⟩, hqu⟩
      have hexback : ∀ x,
          (∃ q ∈ aerase st.active_sessions sid, q.2.user_id = x) →
          ∃ q ∈ st.active_sessions, q.2.user_id = x := by
        rintro x ⟨q, hq, hqu⟩
        exact ⟨q, mem_aerase _ _ _ hq, hqu⟩
      have hgen2 : ∀ k ∈ (aerase st.active_sessions sid).map Prod.fst,
          ∃ n, n < st.next_id ∧ k = freshUserMgrId n :=
        fun k hk => hg k (keys_aerase_sub _ _ _ hk)
      by_cases hrem : (aerase st.active_sessions sid).filter
          (fun q => q.2.user_id = s.user_id) = []
      · cases hu : alookup st.users s.user_id with
        | none =>
            have heq : (end_session st sid now).2 =
                { st with active_sessions := aerase st.active_sessions sid } := by
              simp [end_session, hs, hrem, set_user_status, hu]
            rw [heq]
            refine ⟨?_, hU, keys_aerase_nodup _ _ hS, hgen2⟩
            intro p hp
            have hne : p.1 ≠ s.user_id := (alookup_none_iff _ _).mp hu p hp
            exact ⟨fun honline => hexfwd p.1 hne ((hinv p hp).mp honline),
                   fun hex => (hinv p hp).mpr (hexback p.1 hex)⟩
        | some p0 =>
            have heq : (end_session st sid now).2 =
                { st with
                    users := aset st.users s.user_id
                      { p0 with status := UserStatus.offline, last_active := now },
                    active_sessions := aerase st.active_sessions sid } := by
              simp [end_session, hs, hrem, set_user_status, hu]
            rw [heq]
            refine ⟨?_, keys_aset_nodup _ _ _ hU, keys_aerase_nodup _ _ hS, hgen2⟩
            intro p hp
            rcases mem_aset_nodup _ _ _ hU p hp with h1 | ⟨h1, hne⟩
            · rw [h1]
              constructor
              · intro honline
                exact UserStatus.noConfusion honline
              · rintro ⟨q, hq, hqu⟩
                have hqmem : q ∈ (aerase st.active_sessions sid).filter
                    (fun q => q.2.user_id = s.user_id) :=
                  List.mem_filter.mpr ⟨hq, by simp [hqu]⟩
                rw [hrem] at hqmem
                cases hqmem
            · exact ⟨fun honline => hexfwd p.1 hne ((hinv p h1).mp honline),
                     fun hex => (hinv p h1).mpr (hexback p.1 hex)⟩
      · have heq : (end_session st sid now).2 =
            { st with active_sessions := aerase st.active_sessions sid } := by
          simp [end_session, hs, hrem]
        rw [heq]
        refine ⟨?_, hU, keys_aerase_nodup _ _ hS, hgen2⟩
        intro p hp
        by_cases hne : p.1 = s.user_id
        · obtain ⟨x, hx⟩ := List.exists_mem_of_ne_nil _ hrem
          have hx2 := List.mem_filter.mp hx
          have hxu : x.2.user_id = s.user_id := by
            have := hx2.2
            simpa using this
          constructor
          · intro _
            exact ⟨x, hx2.1, by rw [hxu, hne]⟩
          · intro _
            exact (hinv p hp).mpr ⟨(sid, s), hmem_s, hne.symm⟩
        · exact ⟨fun honline => hexfwd p.1 hne ((hinv p hp).mp honline),
                 fun hex => (hinv p hp).mpr (hexback p.1 hex)⟩

theorem umInv_apply (st : UMState) (op : UserOp) (now : Nat)
    (hop : isSessionOp op = true) (h : umInv st) :
    umInv (applyUserOp st op now) := by
  cases op with
  | createUser data => exact create_user_inv st data now h
  | createSession uid => exact create_session_inv st uid now h
  | endSession sid => exact end_session_inv st sid now h
  | setStatus uid s => simp [isSessionOp] at hop
  | updateUser uid upd => simp [isSessionOp] at hop

theorem umInv_applyOps : ∀ (ops : List UserOp) (st : UMState) (t : Nat),
    (∀ op ∈ ops, isSessionOp op = true) → umInv st →
    umInv (applyUserOps st t ops) := by
  intro ops
  induction ops with
  | nil => intro st t _ h; exact h
  | cons op rest ih =>
      intro st t hops h
      rw [applyUserOps]
      exact ih _ _ (fun o ho => hops o (List.mem_cons_of_mem _ ho))
        (umInv_apply st op t (hops op (List.mem_cons_self _ _)) h)

theorem umInv_initial : umInv umInitial := by
  refine ⟨?_, ?_, ?_, ?_⟩
  · intro p hp
    exact absurd hp (List.not_mem_nil p)
  · exact List.nodup_nil
  · exact List.nodup_nil
  · intro k hk
    exact absurd hk (List.not_mem_nil k)

/-- Claim C9 (amended): the online-iff-session invariant holds in every
state reachable through `create_user`, `create_session` and `end_session`
alone; `set_user_status` and `update_user` — the two remaining
UserDirectory operations, which write the status field directly — can
break it in either direction (see the counterexample). -/
theorem C9_online_iff_sessions (ops : List UserOp) (t : Nat)
    (hops : ∀ op ∈ ops, isSessionOp op = true) :
    userOnlineInv (applyUserOps umInitial t ops) :=
  (umInv_applyOps ops umInitial t hops umInv_initial).1

/-- Witness for C9_online_iff_sessions: register alice, open a second
session, close the first — the invariant holds along the way. -/
theorem C9_online_iff_sessions_witness :
    (∀ op ∈ [UserOp.createUser { user_id := some "u1", username := "alice" },
             UserOp.createSession "u1",
             UserOp.endSession (freshUserMgrId 1)], isSessionOp op = true) ∧
    userOnlineInv (applyUserOps umInitial 0
      [UserOp.createUser { user_id := some "u1", username := "alice" },
       UserOp.createSession "u1",
       UserOp.endSession (freshUserMgrId 1)]) :=
  ⟨by decide,
   C9_online_iff_sessions
     [UserOp.createUser { user_id := some "u1", username := "alice" },
      UserOp.createSession "u1",
      UserOp.endSession (freshUserMgrId 1)] 0 (by decide)⟩

/-! ### RealtimeManager and the facade event wiring
    (social_platform.py lines 777-939) -/

/-- `SocialEvent` dataclass (lines 111-119); the `data` payload maps field
names to strings, which is all the facade callbacks put there. -/
structure SocialEvent where
  event_id : String
  event_type : String
  user_id : String
  room_id : Option String := none
  data : List (String × String) := []
  timestamp : Nat := 0
deriving DecidableEq, Repr

/-- `RealtimeManager.__init__` (lines 780-784). `event_handlers` is
omitted: the facade registers none, so the handler loop of `emit_event`
is a no-op in the modelled scope. -/
structure RTMState where
  user_subscriptions : List (String × List String) := []
  room_subscriptions : List (String × List String) := []
  event_queue : List SocialEvent := []
deriving DecidableEq, Repr

/-- `RealtimeManager.subscribe_to_room` (lines 800-806). -/
def subscribe_to_room (st : RTMState) (user_id room_id : String) : RTMState :=
  { st with
      room_subscriptions := aset st.room_subscriptions room_id
        (saddL ((alookup st.room_subscriptions room_id).getD []) user_id) }

/-- `RealtimeManager.emit_event` (lines 814-829): append to the unbounded
history; handler dispatch and subscriber notification (lines 831-853)
touch no manager state in the modelled scope. -/
def emit_event (st : RTMState) (e : SocialEvent) : RTMState :=
  { st with event_queue := st.event_queue ++ [e] }

/-- The per-event relevance test of `get_recent_events` (lines 870-873). -/
def relevantEvent (st : RTMState) (user_id : String) (e : SocialEvent) : Bool :=
  decide (e.event_type ∈ (alookup st.user_subscriptions user_id).getD []) ||
  decide (e.user_id = user_id) ||
  (match e.room_id with
   | some r =>
       match alookup st.room_subscriptions r with
       | some us => decide (user_id ∈ us)
       | none => false
   | none => false)

/-- `RealtimeManager.get_recent_events` (lines 863-879): walk the queue
newest-first collecting relevant events, stopping at `limit` (the loop
with its break equals take-of-filter). -/
def get_recent_events (st : RTMState) (user_id : String) (limit : Nat) :
    List SocialEvent :=
  (st.event_queue.reverse.filter (relevantEvent st user_id)).take limit

/-- The state the `SocialPlatform` facade composes (lines 887-895),
restricted to the components claim C5 exercises (message store and event
bus), with the uuid counter for event identifiers. -/
structure PlatformState where
  mm : MMState := {}
  rtm : RTMState := {}
  next_event_id : Nat := 0
deriving DecidableEq, Repr

/-- Identifier produced by the n-th uuid draw for facade events. -/
def freshEventId (n : Nat) : String := "ev-" ++ toString n

/-- The `on_message_event` callback `_setup_callbacks` registers
(lines 924-939): synthesize a SocialEvent whose type is the manager's
event name prefixed with "message_", carrying sender, room and message
payload, and emit it. -/
def on_message_event (ps : PlatformState) (event_type : String)
    (message : Message) (now : Nat) : PlatformState :=
  let e : SocialEvent :=
    { event_id := freshEventId ps.next_event_id,
      event_type := "message_" ++ event_type,
      user_id := message.sender_id,
      room_id := message.room_id,
      data := [("message_id", message.message_id), ("content", message.content),
               ("message_type", message.message_type)],
      timestamp := now }
  { ps with rtm := emit_event ps.rtm e, next_event_id := ps.next_event_id + 1 }

/-- `SocialPlatform.send_message` (lines 1122-1135): delegate to the
message manager, whose `_notify_message_event("message_sent", message)`
(line 645) invokes the registered callback. -/
def platform_send_message (ps : PlatformState) (sender_id : String)
    (room_id recipient_id : Option String) (content message_type : String)
    (now : Nat) : Message × PlatformState :=
  let res := send_message ps.mm sender_id room_id recipient_id content message_type now
  (res.1, on_message_event { ps with mm := res.2 } "message_sent" res.1 now)

theorem get_recent_events_last (st : RTMState) (e : SocialEvent) (u : String)
    (hrel : relevantEvent (emit_event st e) u e = true) (limit : Nat)
    (hl : 1 ≤ limit) : e ∈ get_recent_events (emit_event st e) u limit := by
  obtain ⟨l, rfl⟩ : ∃ l, limit = l + 1 := ⟨limit - 1, by omega⟩
  show e ∈ ((st.event_queue ++ [e]).reverse.filter
    (relevantEvent (emit_event st e) u)).take (l + 1)
  rw [List.reverse_append]
  simp only [List.reverse_cons, List.reverse_nil, List.nil_append,
    List.singleton_append]
  rw [List.filter_cons, if_pos hrel, List.take_succ_cons]
  exact List.mem_cons_self _ _

/-! ### Claim C5 -/

/-- Fresh platform with bob subscribed to room "r1", the concrete start
state of the C5 counterexample. -/
def c5platform : PlatformState := { rtm := subscribe_to_room {} "bob" "r1" }

/-- The platform after alice sends "hi" to room "r1" through the facade. -/
def c5final : PlatformState :=
  (platform_send_message c5platform "alice" (some "r1") none "hi" "text" 3).2

/-- Claim C5, as stated, is false: after bob subscribes to room "r1" and
alice sends a message there through the facade, `get_recent_events(bob, 10)`
contains NO event whose `event_type` is "message_sent" — the callback
prefixes "message_" onto the manager's already-prefixed "message_sent"
event name, so the one delivered event has type "message_message_sent"
(with the right room). -/
theorem C5_counterexample :
    (∀ e ∈ get_recent_events c5final.rtm "bob" 10,
      ¬(e.event_type = "message_sent" ∧ e.room_id = some "r1")) ∧
    (get_recent_events c5final.rtm "bob" 10).map
        (fun e => (e.event_type, e.room_id)) =
      [("message_message_sent", some "r1")] := by
  decide

/-- Claim C5 (amended): from any platform state, after bob subscribes to
room R and alice sends a message with room id R through the facade,
`get_recent_events(bob, 10)` includes an event whose event type is
"message_message_sent" (the facade double-prefix of the manager's
"message_sent") and whose room id is R. -/
theorem C5_message_event (ps : PlatformState) (alice bob R content mtype : String)
    (now : Nat) :
    ∃ e ∈ get_recent_events ((platform_send_message
        { ps with rtm := subscribe_to_room ps.rtm bob R }
        alice (some R) none content mtype now).2).rtm bob 10,
      e.event_type = "message_message_sent" ∧ e.room_id = some R := by
  refine ⟨{ event_id := freshEventId ps.next_event_id,
            event_type := "message_" ++ "message_sent",
            user_id := alice, room_id := some R,
            data := [("message_id", freshMsgId ps.mm.next_id), ("content", content),
                     ("message_type", mtype)],
            timestamp := now }, ?_, rfl, rfl⟩
  apply get_recent_events_last
  · unfold relevantEvent
    dsimp only [send_message, emit_event, subscribe_to_room]
    rw [alookup_aset_self]
    dsimp only
    rw [decide_eq_true (mem_saddL_self _ bob)]
    simp [Bool.or_true]
  · omega
